import Mathlib

/-!
Verification of the signal-correlation / risk-classification scripts of the
itsec-shell-automation repository.  The repository contains five overlapping
Python variants of the same engine; the definitions below are shallow
embeddings of the relevant functions, one per source symbol:

* `hot_detection_engine.py`: `require_file`, `load_users`, `load_events`,
  `apply_event_fails`, `parse_auth_log_ips`, `classify_user`, `classify_ip`,
  `main` (as `hotRun` / `hotMainExit`).
* `risk_analysis.py`: `count_failed_logins`, `classify_risk`.
* `examination/python/analysis_engine.py`: `Alert`, `parse_auth_log`,
  `classify_linux`, `classify_windows`, `classify_auth`, `summarize`, the
  summary block of `write_final_report`, and the alert serializations of
  `write_alerts_json` / `write_final_report`.
* `automation/python/final_analysis.py`: the Linux risk-process block of
  `main` (as `finalLinuxHits` / `finalLinuxReportLines`).

File reading, path resolution and report I/O are external to the engine; a
file's raw content is passed in as an `Option` (with `none` for a missing
file), already split into lines or rows where the Python code does so.
Python dicts / Counters are modelled as association lists in insertion
order, with first-match lookup.
-/

/-- An alert carrying a severity and a message
(the `Alert` dataclass of `analysis_engine.py`). -/
structure Alert where
  severity : String
  message : String
deriving DecidableEq

/-- Keys of an association list (a Python dict's key view). -/
def keysOf {α : Type} (m : List (String × α)) : List String :=
  m.map Prod.fst

/-- Python `s.lower()` (ASCII view, matching the log/CSV inputs). -/
def pyLower (s : String) : String :=
  String.mk (s.data.map Char.toLower)

/-- Python `s.strip()`: drop whitespace from both ends. -/
def pyTrim (s : String) : String :=
  String.mk
    ((((s.data.dropWhile Char.isWhitespace).reverse).dropWhile Char.isWhitespace).reverse)

/-- Python's string `≤` (code-point lexicographic, as on `String.data`). -/
def strLe (a b : String) : Prop := a.data ≤ b.data

instance : DecidableRel strLe := fun a b => inferInstanceAs (Decidable (a.data ≤ b.data))

instance : IsTotal String strLe := ⟨fun a b => le_total a.data b.data⟩

instance : IsTrans String strLe := ⟨fun _ _ _ h1 h2 => le_trans h1 h2⟩

/-- The relation `strLe` coincides with the lexicographic string order. -/
theorem strLe_iff (a b : String) : strLe a b ↔ a ≤ b :=
  Iff.symm String.le_iff_toList_le

/-- Python `counts[k] = counts.get(k, 0) + 1` on a dict / Counter: the first entry
with key `k` is incremented in place; a fresh key is appended at the end,
matching dict insertion order. -/
def bumpCount : List (String × Nat) → String → List (String × Nat)
  | [], k => [(k, 1)]
  | (a, c) :: rest, k =>
    if a = k then (a, c + 1) :: rest else (a, c) :: bumpCount rest k

/-- Python `counts.get(k, d)` on a dict modelled as an association list. -/
def lookupD (m : List (String × Nat)) (k : String) (d : Nat) : Nat :=
  (m.lookup k).getD d

/-- Substring test on character lists: hay contains needle, as Python's
`needle in hay`. -/
def hasSubstrAux (needle : List Char) : List Char → Bool
  | [] => needle.isEmpty
  | c :: rest => needle.isPrefixOf (c :: rest) || hasSubstrAux needle rest

/-- Python `needle in hay` for strings. -/
def hasSubstr (needle hay : String) : Bool :=
  hasSubstrAux needle.toList hay.toList

/-! ### The IPv4 extraction patterns

`analysis_engine.py` uses `(\d{1,3}(?:\.\d{1,3}){3})` (no word boundaries);
`hot_detection_engine.py` uses `\b(\d{1,3}(?:\.\d{1,3}){3})\b`.  Matching is
leftmost-first; inside a match, a digit group followed by `.` can only
consume its whole digit run (a digit run longer than 3 fails the position,
since backtracking cannot make the next character a dot). -/

/-- Split off the maximal leading digit run. -/
def takeDigitRun (cs : List Char) : List Char × List Char :=
  (cs.takeWhile Char.isDigit, cs.dropWhile Char.isDigit)

/-- Match `\d{1,3}\.`, returning the consumed characters and the rest. -/
def ipGroupDot (cs : List Char) : Option (List Char × List Char) :=
  let d := takeDigitRun cs
  if d.1.isEmpty || 3 < d.1.length then none
  else
    match d.2 with
    | '.' :: r2 => some (d.1 ++ ['.'], r2)
    | _ => none

/-- Match `\d{1,3}\.\d{1,3}\.\d{1,3}\.`, the first three octets. -/
def ipMatchPre (cs : List Char) : Option (List Char × List Char) := do
  let g1 ← ipGroupDot cs
  let g2 ← ipGroupDot g1.2
  let g3 ← ipGroupDot g2.2
  some (g1.1 ++ g2.1 ++ g3.1, g3.2)

/-- Match the unbounded pattern at this position: the last `\d{1,3}` is
greedy and tolerates further digits after it. -/
def ipMatchAt (cs : List Char) : Option (List Char) :=
  match ipMatchPre cs with
  | some pre =>
    let d4 := (takeDigitRun pre.2).1
    if d4.isEmpty then none else some (pre.1 ++ d4.take 3)
  | none => none

/-- Word character for `\b` (ASCII view of Python's `\w`). -/
def isWordChar (c : Char) : Bool := c.isAlphanum || c == '_'

/-- Match the `\b`-bounded pattern at this position: the final digit run may
be at most 3 long and must be followed by a non-word character or the end. -/
def ipMatchAtB (cs : List Char) : Option (List Char) :=
  match ipMatchPre cs with
  | some pre =>
    let d4 := takeDigitRun pre.2
    if d4.1.isEmpty || 3 < d4.1.length then none
    else
      match d4.2 with
      | [] => some (pre.1 ++ d4.1)
      | c :: _ => if isWordChar c then none else some (pre.1 ++ d4.1)
  | none => none

/-- Leftmost match of the unbounded IPv4 pattern. -/
def firstIPv4Go : List Char → Option String
  | [] => none
  | c :: rest =>
    match ipMatchAt (c :: rest) with
    | some m => some (String.mk m)
    | none => firstIPv4Go rest

/-- Source `ip_regex.search(line)` of `analysis_engine.py`. -/
def firstIPv4 (s : String) : Option String :=
  firstIPv4Go s.toList

/-- Leftmost match of the `\b`-bounded pattern; `prev` is the character just
before the current position (for the leading boundary). -/
def firstIPv4BGo (prev : Option Char) : List Char → Option String
  | [] => none
  | c :: rest =>
    match
      (if (match prev with | none => true | some q => !isWordChar q) then
        ipMatchAtB (c :: rest)
      else none) with
    | some m => some (String.mk m)
    | none => firstIPv4BGo (some c) rest

/-- Source `ip_regex.search(line)` of `hot_detection_engine.py`. -/
def firstIPv4B (s : String) : Option String :=
  firstIPv4BGo none s.toList

/-! ### hot_detection_engine.py: users, events, per-user fail counting -/

/-- The per-user record `{"status": ..., "fails": ...}`. -/
structure UserInfo where
  status : String
  fails : Nat
deriving DecidableEq

/-- One entry of the `events` list: a JSON object whose `user` / `event`
fields may be absent. -/
structure Event where
  user : Option String
  event : Option String
deriving DecidableEq

/-- Python `(e.get("user") or "").strip()`. -/
def evUser (e : Event) : String := pyTrim (e.user.getD "")

/-- Python `(e.get("event") or "").strip().lower()`. -/
def evType (e : Event) : String := pyLower (pyTrim (e.event.getD ""))

/-- Python `users[user]["fails"] += 1`. -/
def bumpUser (users : List (String × UserInfo)) (k : String) :
    List (String × UserInfo) :=
  users.map (fun p => if p.1 = k then (p.1, ⟨p.2.status, p.2.fails + 1⟩) else p)

/-- The event loop of `apply_event_fails`, threading the mutable user table
and the `unknown_users` Counter. -/
def applyFailsGo (users : List (String × UserInfo)) (tally : List (String × Nat)) :
    List Event → List (String × UserInfo) × List (String × Nat)
  | [] => (users, tally)
  | e :: es =>
    if evType e ≠ "failed_login" then applyFailsGo users tally es
    else if evUser e = "" then applyFailsGo users tally es
    else if evUser e ∈ keysOf users then
      applyFailsGo (bumpUser users (evUser e)) tally es
    else applyFailsGo users (bumpCount tally (evUser e)) es

/-- Python `apply_event_fails(users, events)`: mutates the user table and returns
the `unknown_users` Counter. -/
def apply_event_fails (users : List (String × UserInfo)) (events : List Event) :
    List (String × UserInfo) × List (String × Nat) :=
  applyFailsGo users [] events

/-- Python `classify_user(status, fails)` of `hot_detection_engine.py`. -/
def classify_user (status : String) (fails : Nat) : String :=
  if status = "disabled" ∧ 1 ≤ fails then "CRITICAL"
  else if 3 ≤ fails then "HIGH RISK"
  else if 1 ≤ fails then "MEDIUM RISK"
  else "LOW RISK"

/-- Python `classify_ip(fails)` of `hot_detection_engine.py`. -/
def classify_ip (fails : Nat) : String :=
  if 5 ≤ fails then "BRUTE FORCE SUSPECT"
  else if 1 ≤ fails then "SUSPICIOUS"
  else "LOW"

/-! ### risk_analysis.py -/

/-- Python `classify_risk(status, fails)` of `risk_analysis.py`. -/
def classify_risk (status : String) (fails : Nat) : String :=
  if status = "disabled" ∧ 0 < fails then "CRITICAL"
  else if 3 ≤ fails then "HIGH"
  else if 1 ≤ fails then "MEDIUM"
  else "LOW"

/-- One event of the `count_failed_logins` loop: exact match on the raw
`user` / `event` fields, unknown or absent users skipped silently. -/
def cflStep (us : List (String × UserInfo)) (evt : Event) : List (String × UserInfo) :=
  match evt.user with
  | some u =>
    if evt.event = some "failed_login" ∧ u ∈ keysOf us then bumpUser us u
    else us
  | none => us

/-- Python `count_failed_logins(events, users)` of `risk_analysis.py`: exact-match
counting, no trimming, no unknown-user tally. -/
def count_failed_logins (events : List Event) (users : List (String × UserInfo)) :
    List (String × UserInfo) :=
  events.foldl cflStep users

/-- C1: user classification — `disabled ∧ fail_count ≥ 1` is CRITICAL and
takes precedence; otherwise `≥ 3` is HIGH, `≥ 1` is MEDIUM, else LOW;
in particular a disabled user with 0 fails is LOW.  This holds of both
`classify_risk` (`risk_analysis.py`) and `classify_user`
(`hot_detection_engine.py`, whose non-critical labels carry a ` RISK`
suffix). -/
theorem c1_user_classification (status : String) (fails : Nat) :
    (status = "disabled" → 1 ≤ fails →
      classify_risk status fails = "CRITICAL" ∧
      classify_user status fails = "CRITICAL") ∧
    (status ≠ "disabled" → 3 ≤ fails →
      classify_risk status fails = "HIGH" ∧
      classify_user status fails = "HIGH RISK") ∧
    (status ≠ "disabled" → 1 ≤ fails → fails < 3 →
      classify_risk status fails = "MEDIUM" ∧
      classify_user status fails = "MEDIUM RISK") ∧
    (fails = 0 →
      classify_risk status fails = "LOW" ∧
      classify_user status fails = "LOW RISK") := by
  unfold classify_risk classify_user
  refine ⟨fun h1 h2 => ?_, fun h1 h2 => ?_, fun h1 h2 h3 => ?_, fun h1 => ?_⟩ <;>
    split_ifs <;> simp_all <;> omega

/-- Witness for C1 at the regression input: a disabled user with 0 fails is
LOW, and a disabled user with 1 fail is CRITICAL. -/
theorem c1_user_classification_witness :
    (classify_risk "disabled" 0 = "LOW" ∧ classify_user "disabled" 0 = "LOW RISK") ∧
    (classify_risk "disabled" 1 = "CRITICAL" ∧ classify_user "disabled" 1 = "CRITICAL") :=
  ⟨(c1_user_classification "disabled" 0).2.2.2 rfl,
   (c1_user_classification "disabled" 1).1 rfl (by omega)⟩

/-! ### analysis_engine.py: blocklists, rule evaluators, aggregation -/

/-- Constant `RISK_PROCESSES` of `analysis_engine.py` (a set; only membership is
used). -/
def RISK_PROCESSES : List String := ["nc", "netcat", "hydra", "john"]

/-- Constant `RISK_SERVICES` of `analysis_engine.py`. -/
def RISK_SERVICES : List String := ["Telnet", "RemoteRegistry", "Spooler"]

/-- Constant `SEVERITY_ORDER` of `analysis_engine.py`. -/
def SEVERITY_ORDER : List String :=
  ["CRITICAL", "HIGH", "MEDIUM", "LOW", "INFO", "WARNING", "ERROR"]

/-- A normalized Windows service row (`{"Name": ..., "Status": ...}` as
produced by `load_windows_services`). -/
structure ServiceRow where
  name : String
  status : String
deriving DecidableEq

/-- The CRITICAL alert for one risky process occurrence. -/
def linuxCritAlert (p : String) : Alert :=
  ⟨"CRITICAL", "(linux) Risk process detected: " ++ p⟩

/-- The INFO clear alert of the Linux process rule. -/
def linuxClearAlert : Alert :=
  ⟨"INFO", "(linux) OK: No known Linux risk processes detected."⟩

/-- Python `classify_linux(processes, alerts)`: one CRITICAL alert per matching
occurrence (no dedup, no sort), or a single INFO clear alert. -/
def classify_linux (processes : List String) : List Alert :=
  let hits := processes.filter (fun p => decide (pyLower p ∈ RISK_PROCESSES))
  if hits.isEmpty then [linuxClearAlert] else hits.map linuxCritAlert

/-- The HIGH alert for one risky service row, embedding its status. -/
def winHighAlert (s : ServiceRow) : Alert :=
  ⟨"HIGH", "(windows) Risky service detected: " ++ s.name ++
    " (Status=" ++ s.status ++ ")"⟩

/-- The INFO clear alert of the Windows service rule. -/
def winClearAlert : Alert :=
  ⟨"INFO",
    "(windows) OK: No risky Windows services detected (Telnet/RemoteRegistry/Spooler)."⟩

/-- Python `classify_windows(services, alerts)`: one HIGH alert per matching row
(no dedup, no sort), or a single INFO clear alert. -/
def classify_windows (services : List ServiceRow) : List Alert :=
  let hits := services.filter (fun s => decide (s.name ∈ RISK_SERVICES))
  if hits.isEmpty then [winClearAlert] else hits.map winHighAlert

/-- One line of the `parse_auth_log` loop: tally a `failed` line under its
first extracted IPv4, if any. -/
def authStep (t : List (String × Nat)) (line : String) : List (String × Nat) :=
  if hasSubstr "failed" (pyLower line) then
    match firstIPv4 line with
    | some ip => bumpCount t ip
    | none => t
  else t

/-- Python `parse_auth_log(path, alerts)`: a missing file yields an empty tally and
one INFO diagnostic; otherwise lines containing "failed" (case-insensitive)
with an extracted IPv4 are tallied per IP.  The second component is the
list of diagnostic alerts this normalizer appends. -/
def parse_auth_log (path : String) (raw : Option (List String)) :
    List (String × Nat) × List Alert :=
  match raw with
  | none => ([], [⟨"INFO", "(auth) auth.log missing (optional): " ++ path⟩])
  | some lines => (lines.foldl authStep [], [])

/-- The ordering key of `sorted(ip_counts.items(), key=lambda x: x[1],
reverse=True)`: descending count. -/
def byCountDesc (a b : String × Nat) : Prop := b.2 ≤ a.2

instance : DecidableRel byCountDesc := fun a b => Nat.decLe b.2 a.2

instance : IsTotal (String × Nat) byCountDesc :=
  ⟨fun a b => Nat.le_total b.2 a.2⟩

instance : IsTrans (String × Nat) byCountDesc :=
  ⟨fun _ _ _ h1 h2 => Nat.le_trans h2 h1⟩

/-- Python's `sorted(..., key=lambda x: x[1], reverse=True)`: a stable sort
by descending count (insertion sort is stable, like Python's sort). -/
def pySortDesc (t : List (String × Nat)) : List (String × Nat) :=
  List.insertionSort byCountDesc t

/-- The CRITICAL brute-force alert for one tally entry. -/
def bruteAlert (e : String × Nat) : Alert :=
  ⟨"CRITICAL", "(auth) Brute-force indicator from IP " ++ e.1 ++
    " (" ++ toString e.2 ++ " fails)"⟩

/-- The MEDIUM suspicious-logins alert for one tally entry. -/
def suspAlert (e : String × Nat) : Alert :=
  ⟨"MEDIUM", "(auth) Suspicious failed logins from IP " ++ e.1 ++
    " (" ++ toString e.2 ++ " fails)"⟩

/-- The alert emitted for one tally entry: CRITICAL at count ≥ 5, else
MEDIUM. -/
def authAlertFor (e : String × Nat) : Alert :=
  if 5 ≤ e.2 then bruteAlert e else suspAlert e

/-- The INFO alert of `classify_auth` for an empty tally. -/
def authClearAlert : Alert :=
  ⟨"INFO", "(auth) No failed-login IP indicators found (or auth.log missing)."⟩

/-- Python `classify_auth(ip_counts, alerts)`. -/
def classify_auth (ip_counts : List (String × Nat)) : List Alert :=
  if ip_counts.isEmpty then [authClearAlert]
  else (pySortDesc ip_counts).map authAlertFor

/-- Python `summarize(alerts)`: count per severity in first-appearance order, then
`setdefault` every severity of `SEVERITY_ORDER` to 0. -/
def summarize (alerts : List Alert) : List (String × Nat) :=
  SEVERITY_ORDER.foldl
    (fun m sev => if sev ∈ keysOf m then m else m ++ [(sev, 0)])
    (alerts.foldl (fun m a => bumpCount m a.severity) [])

/-- The severities listed in the summary block of `write_final_report`
(`LOW` is absent there). -/
def REPORT_SUMMARY_SEVS : List String :=
  ["CRITICAL", "HIGH", "MEDIUM", "INFO", "WARNING", "ERROR"]

/-- The `=== SUMMARY ===` lines of `write_final_report`. -/
def summarySectionLines (counts : List (String × Nat)) : List String :=
  REPORT_SUMMARY_SEVS.map (fun sev => sev ++ ": " ++ toString (lookupD counts sev 0))

/-- The `alerts` array of the `write_alerts_json` payload:
`[{"severity": a.severity, "message": a.message} for a in alerts]`. -/
def alertsJsonPairs (alerts : List Alert) : List (String × String) :=
  alerts.map (fun a => (a.severity, a.message))

/-- The `=== ALERTS ===` lines of `write_final_report`:
`f"{a.severity}: {a.message}"` per alert. -/
def reportAlertLines (alerts : List Alert) : List String :=
  alerts.map (fun a => a.severity ++ ": " ++ a.message)

/-! ### final_analysis.py: the Linux risk-process block of main -/

/-- Constant `linux_risk_list` of `final_analysis.py`. -/
def linux_risk_list : List String := ["nc", "netcat", "hydra", "john"]

/-- Python `sorted({p for p in linux_processes if p.lower() in linux_risk_list})`:
deduplicate, then sort ascending. -/
def finalLinuxHits (linux_processes : List String) : List String :=
  List.insertionSort strLe
    ((linux_processes.filter (fun p => decide (pyLower p ∈ linux_risk_list))).dedup)

/-- The Linux block of `final_analysis.main`: one CRITICAL line per distinct
sorted hit, or a single OK line. -/
def finalLinuxReportLines (linux_processes : List String) : List String :=
  let hits := finalLinuxHits linux_processes
  if hits.isEmpty then ["OK: Inga kända Linux-riskprocesser upptäckta."]
  else hits.map (fun p => "CRITICAL: Linux riskprocess upptäckt – " ++ p)

/-! ### hot_detection_engine.py: the failing pipeline (auth.log is required
there and a missing file raises `FileNotFoundError`, which `main` catches,
returning exit code 1) -/

/-- Python `require_file(path)`: raises `FileNotFoundError` when the file is
missing, modelled as `Except.error`. -/
def require_file {α : Type} (name : String) (contents : Option α) : Except String α :=
  match contents with
  | none => Except.error ("Missing required file: " ++ name)
  | some v => Except.ok v

/-- A parsed CSV file: the header's field names and, per row, the `username`
and `status` cells (absent cells are `none`). -/
structure CsvFile where
  fieldnames : List String
  rows : List (Option String × Option String)

/-- Python `users[username] = value` on a dict: replace the first matching entry or
append a fresh key at the end. -/
def dictSet : List (String × UserInfo) → String → UserInfo → List (String × UserInfo)
  | [], k, v => [(k, v)]
  | (a, b) :: rest, k, v =>
    if a = k then (a, v) :: rest else (a, b) :: dictSet rest k v

/-- Python `load_users(csv_path)` of `hot_detection_engine.py`: requires the file
and the `username`/`status` columns; trims cells, lowercases the status with
an `active` fallback, and skips rows with an empty username. -/
def load_users (csv : Option CsvFile) : Except String (List (String × UserInfo)) := do
  let f ← require_file "users.csv" csv
  if "username" ∈ f.fieldnames ∧ "status" ∈ f.fieldnames then
    Except.ok (f.rows.foldl
      (fun users row =>
        let username := pyTrim (row.1.getD "")
        let status0 := pyLower (pyTrim (row.2.getD ""))
        if username = "" then users
        else
          dictSet users username
            ⟨if status0 = "active" ∨ status0 = "disabled" then status0 else "active", 0⟩)
      [])
  else Except.error "users.csv must contain columns: username,status"

/-- Python `load_events(json_path)` of `hot_detection_engine.py`: the inner
`Option` is the decoded top-level `events` value (`none` when it is not a
list). -/
def load_events (j : Option (Option (List Event))) : Except String (List Event) := do
  let data ← require_file "events.json" j
  match data with
  | some events => Except.ok events
  | none => Except.error "events.json must contain a top-level events list"

/-- One line of `parse_auth_log_ips`: tally a `failed` line under its first
`\b`-bounded IPv4, if any. -/
def authStepB (t : List (String × Nat)) (line : String) : List (String × Nat) :=
  if hasSubstr "failed" (pyLower line) then
    match firstIPv4B line with
    | some ip => bumpCount t ip
    | none => t
  else t

/-- Python `parse_auth_log_ips(log_path)` of `hot_detection_engine.py`: requires
the file, then tallies `failed` lines by their first `\b`-bounded IPv4. -/
def parse_auth_log_ips (auth : Option (List String)) :
    Except String (List (String × Nat)) := do
  let lines ← require_file "auth.log" auth
  Except.ok (lines.foldl authStepB [])

/-- The body of `hot_detection_engine.main` up to report writing: any raised
error propagates (report emission itself is external I/O). -/
def hotRun (usersCsv : Option CsvFile) (eventsJson : Option (Option (List Event)))
    (auth : Option (List String)) :
    Except String
      (List (String × UserInfo) × List (String × Nat) × List (String × Nat)) := do
  let users ← load_users usersCsv
  let events ← load_events eventsJson
  let uf := apply_event_fails users events
  let ip_counts ← parse_auth_log_ips auth
  Except.ok (uf.1, ip_counts, uf.2)

/-- Python `main()` of `hot_detection_engine.py`: `except Exception` turns any
raised error into exit code 1 (no report is written). -/
def hotMainExit (usersCsv : Option CsvFile) (eventsJson : Option (Option (List Event)))
    (auth : Option (List String)) : Nat :=
  match hotRun usersCsv eventsJson auth with
  | Except.ok _ => 0
  | Except.error _ => 1

/-! ### C9: the JSON payload and the plain-text report render the same
alert list -/

/-- C9: the structured payload's alerts and the plain-text report's alert
listing are both derived from the same in-memory alert list: the text lines
are exactly the rendering of the JSON `(severity, message)` pairs, pair by
pair and in the same order. -/
theorem c9_outputs_agree (alerts : List Alert) :
    reportAlertLines alerts
      = (alertsJsonPairs alerts).map (fun p => p.1 ++ ": " ++ p.2) ∧
    alertsJsonPairs alerts = alerts.map (fun a => (a.severity, a.message)) ∧
    (alertsJsonPairs alerts).length = alerts.length := by
  refine ⟨?_, rfl, by simp [alertsJsonPairs]⟩
  simp [reportAlertLines, alertsJsonPairs, List.map_map]

/-! ### C5: missing authentication log -/

/-- C5 (amended): in `analysis_engine.py` the auth normalizer converts a
missing auth.log into an empty tally plus exactly one INFO diagnostic, the
auth rule then emits only its INFO no-findings alert, and no CRITICAL or
MEDIUM per-IP alert is produced; the run continues.  (The claim's
"never a run failure" part fails for `hot_detection_engine.py`, see the
counterexample.) -/
theorem c5_missing_auth_degrades (path : String) :
    parse_auth_log path none
      = ([], [⟨"INFO", "(auth) auth.log missing (optional): " ++ path⟩]) ∧
    classify_auth (parse_auth_log path none).1 = [authClearAlert] ∧
    (((parse_auth_log path none).2 ++ classify_auth (parse_auth_log path none).1).all
      (fun a => a.severity == "INFO")) = true :=
  ⟨rfl, rfl, rfl⟩

/-- C5 counterexample: in `hot_detection_engine.py` the auth log is
required; with a valid users.csv and events.json but no auth.log,
`require_file` raises `FileNotFoundError` and `main` returns exit code 1 —
a run failure with no report, refuting "never a run failure" and
"no normalizer raises an uncaught error to its caller". -/
theorem c5_cex_hot_requires_auth :
    hotRun (some ⟨["username", "status"], [(some "alice", some "active")]⟩)
        (some (some [])) none
      = Except.error "Missing required file: auth.log" ∧
    hotMainExit (some ⟨["username", "status"], [(some "alice", some "active")]⟩)
        (some (some [])) none = 1 :=
  ⟨rfl, rfl⟩

/-! ### C8: the summary map is zero-filled for all severities, but the
report's summary block omits LOW -/

theorem lookup_bumpCount_self (t : List (String × Nat)) (k : String) :
    (bumpCount t k).lookup k = some ((t.lookup k).getD 0 + 1) := by
  induction t with
  | nil => simp [bumpCount, List.lookup_cons]
  | cons e rest ih =>
    obtain ⟨a, c⟩ := e
    by_cases h : a = k
    · subst h
      simp [bumpCount, List.lookup_cons]
    · simp [bumpCount, h, List.lookup_cons, beq_false_of_ne (Ne.symm h), ih]

theorem lookup_bumpCount_ne (t : List (String × Nat)) (k k' : String) (h : k' ≠ k) :
    (bumpCount t k).lookup k' = t.lookup k' := by
  induction t with
  | nil => simp [bumpCount, List.lookup_cons, beq_false_of_ne h]
  | cons e rest ih =>
    obtain ⟨a, c⟩ := e
    by_cases ha : a = k
    · subst ha
      simp [bumpCount, List.lookup_cons, beq_false_of_ne h]
    · by_cases ha' : a = k'
      · subst ha'
        simp [bumpCount, ha, List.lookup_cons]
      · simp [bumpCount, ha, List.lookup_cons, beq_false_of_ne (Ne.symm ha'), ih]

theorem lookup_countFold (alerts : List Alert) :
    ∀ m : List (String × Nat), ∀ sev : String,
      ((alerts.foldl (fun m a => bumpCount m a.severity) m).lookup sev).getD 0
        = (m.lookup sev).getD 0 + alerts.countP (fun a => a.severity == sev) := by
  induction alerts with
  | nil => intro m sev; simp
  | cons a rest ih =>
    intro m sev
    rw [List.foldl_cons, ih, List.countP_cons]
    by_cases h : a.severity = sev
    · subst h
      rw [lookup_bumpCount_self]
      simp only [Option.getD_some, beq_self_eq_true, if_true]
      omega
    · rw [lookup_bumpCount_ne _ _ _ (Ne.symm h)]
      simp [beq_false_of_ne h]

theorem lookup_append_left {β : Type} (m l : List (String × β)) (k : String) (v : β)
    (h : m.lookup k = some v) : (m ++ l).lookup k = some v := by
  induction m with
  | nil => simp [List.lookup] at h
  | cons e rest ih =>
    obtain ⟨a, b⟩ := e
    by_cases ha : a = k
    · subst ha
      simpa [List.lookup_cons] using h
    · rw [List.lookup_cons, beq_false_of_ne (Ne.symm ha)] at h
      simpa [List.lookup_cons, beq_false_of_ne (Ne.symm ha)] using ih h

theorem lookup_append_none {β : Type} (m l : List (String × β)) (k : String)
    (h : m.lookup k = none) : (m ++ l).lookup k = l.lookup k := by
  induction m with
  | nil => rfl
  | cons e rest ih =>
    obtain ⟨a, b⟩ := e
    by_cases ha : a = k
    · subst ha
      simp [List.lookup_cons] at h
    · rw [List.lookup_cons, beq_false_of_ne (Ne.symm ha)] at h
      simpa [List.lookup_cons, beq_false_of_ne (Ne.symm ha)] using ih h

theorem mem_keysOf_lookup {β : Type} (m : List (String × β)) (k : String)
    (h : k ∈ keysOf m) : ∃ v, m.lookup k = some v := by
  induction m with
  | nil => simp [keysOf] at h
  | cons e rest ih =>
    obtain ⟨a, b⟩ := e
    by_cases ha : a = k
    · exact ⟨b, by simp [List.lookup_cons, ha]⟩
    · simp only [keysOf, List.map_cons, List.mem_cons] at h
      rcases h with h | h
    
      · exact absurd h.symm ha
      · simpa [List.lookup_cons, beq_false_of_ne (Ne.symm ha)] using ih h

theorem not_mem_keysOf_lookup {β : Type} (m : List (String × β)) (k : String)
    (h : k ∉ keysOf m) : m.lookup k = none := by
  induction m with
  | nil => rfl
  | cons e rest ih =>
    obtain ⟨a, b⟩ := e
    simp only [keysOf, List.map_cons, List.mem_cons] at h
    push_neg at h
    rw [List.lookup_cons, beq_false_of_ne h.1]
    exact ih (by simpa [keysOf] using h.2)

theorem lookup_setd_some {β : Type} (m : List (String × β)) (s k : String) (z : β) (v : β)
    (h : m.lookup k = some v) :
    (if s ∈ keysOf m then m else m ++ [(s, z)]).lookup k = some v := by
  by_cases hs : s ∈ keysOf m
  · simpa [hs] using h
  · simp only [hs, if_false]
    exact lookup_append_left m [(s, z)] k v h

theorem lookup_fold_setd_some (sevs : List String) :
    ∀ m : List (String × Nat), ∀ k : String, ∀ v : Nat, m.lookup k = some v →
      (sevs.foldl (fun m sev => if sev ∈ keysOf m then m else m ++ [(sev, 0)]) m).lookup k
        = some v := by
  induction sevs with
  | nil => intro m k v h; simpa using h
  | cons s rest ih =>
    intro m k v h
    exact ih _ _ _ (lookup_setd_some m s k 0 v h)

theorem getD_setd (m : List (String × Nat)) (s k : String) :
    (((if s ∈ keysOf m then m else m ++ [(s, 0)]).lookup k).getD 0)
      = ((m.lookup k).getD 0) := by
  by_cases hs : s ∈ keysOf m
  · simp [hs]
  · simp only [hs, if_false]
    cases h : m.lookup k with
    | some v => rw [lookup_append_left m _ k v h]
    | none =>
      rw [lookup_append_none m _ k h]
      by_cases hk : s = k
      · subst hk
        simp [List.lookup_cons]
      · simp [List.lookup_cons, beq_false_of_ne (Ne.symm hk)]

theorem lookup_fold_setd_mem (sevs : List String) :
    ∀ m : List (String × Nat), ∀ k : String, k ∈ sevs →
      (sevs.foldl (fun m sev => if sev ∈ keysOf m then m else m ++ [(sev, 0)]) m).lookup k
        = some ((m.lookup k).getD 0) := by
  induction sevs with
  | nil => intro m k h; simp at h
  | cons s rest ih =>
    intro m k h
    rw [List.foldl_cons]
    rcases List.mem_cons.mp h with h | h
    · subst h
      by_cases hs : k ∈ keysOf m
      · obtain ⟨v, hv⟩ := mem_keysOf_lookup m k hs
        rw [lookup_fold_setd_some rest _ k v (by simpa [hs] using hv), hv]
        rfl
      · have hnone := not_mem_keysOf_lookup m k hs
        have h0 : (if k ∈ keysOf m then m else m ++ [(k, 0)]).lookup k = some 0 := by
          simp only [hs, if_false]
          rw [lookup_append_none m _ k hnone]
          simp [List.lookup_cons]
        rw [lookup_fold_setd_some rest _ k 0 h0, hnone]
        rfl
    · rw [ih _ _ h, getD_setd]

/-- C8 (amended): the summary map of `summarize` holds the exact alert count
for every severity of `SEVERITY_ORDER` (zero-filled when absent), and the
report's summary block renders a correct count line for the six severities
CRITICAL, HIGH, MEDIUM, INFO, WARNING, ERROR — but only those six: LOW,
though a known severity, gets no line (see the counterexample). -/
theorem c8_summary_severities (alerts : List Alert) :
    (∀ sev ∈ SEVERITY_ORDER,
      (summarize alerts).lookup sev
        = some (alerts.countP (fun a => a.severity == sev))) ∧
    (∀ sev ∈ REPORT_SUMMARY_SEVS,
      (sev ++ ": " ++ toString (alerts.countP (fun a => a.severity == sev)))
        ∈ summarySectionLines (summarize alerts)) ∧
    (summarySectionLines (summarize alerts)).length = 6 ∧
    "LOW" ∈ SEVERITY_ORDER := by
  have hmain : ∀ sev ∈ SEVERITY_ORDER,
      (summarize alerts).lookup sev
        = some (alerts.countP (fun a => a.severity == sev)) := by
    intro sev hsev
    unfold summarize
    rw [lookup_fold_setd_mem SEVERITY_ORDER _ sev hsev]
    have h := lookup_countFold alerts [] sev
    simp only [List.lookup] at h
    rw [h]
    simp
  refine ⟨hmain, ?_, by simp [summarySectionLines, REPORT_SUMMARY_SEVS], by decide⟩
  intro sev hsev
  have hsev7 : sev ∈ SEVERITY_ORDER := by fin_cases hsev <;> decide
  have hl : lookupD (summarize alerts) sev 0
      = alerts.countP (fun a => a.severity == sev) := by
    unfold lookupD
    rw [hmain sev hsev7]
    rfl
  unfold summarySectionLines
  exact hl ▸ List.mem_map_of_mem _ hsev

/-- Witness for C8 at one CRITICAL alert: the summary map records the count
1 for CRITICAL and the report block contains the line `CRITICAL: 1`. -/
theorem c8_summary_severities_witness :
    (summarize [⟨"CRITICAL", "x"⟩]).lookup "CRITICAL" = some 1 ∧
    "CRITICAL: 1" ∈ summarySectionLines (summarize [⟨"CRITICAL", "x"⟩]) := by
  have h := c8_summary_severities [⟨"CRITICAL", "x"⟩]
  refine ⟨(h.1 "CRITICAL" (by decide)).trans (by decide), ?_⟩
  have h2 := h.2.1 "CRITICAL" (by decide)
  exact (by decide :
    ("CRITICAL" ++ ": " ++
        toString (List.countP (fun a : Alert => a.severity == "CRITICAL")
          [(⟨"CRITICAL", "x"⟩ : Alert)]))
      = "CRITICAL: 1") ▸ h2

/-- C8 counterexample: LOW is a known severity and the summary map carries
`LOW: 0`, yet the plain-text summary block has no LOW line — refuting "the
plain-text report's summary block lists a count line for every known
severity". -/
theorem c8_cex_low_line_missing :
    ("LOW" ∈ SEVERITY_ORDER ∧ (summarize []).lookup "LOW" = some 0) ∧
    "LOW: 0" ∉ summarySectionLines (summarize []) :=
  ⟨⟨by decide, by decide⟩, by decide⟩

/-! ### C2: per-IP classification thresholds -/

theorem bumpCount_pos (t : List (String × Nat)) (k : String)
    (h : ∀ e ∈ t, 1 ≤ e.2) : ∀ e ∈ bumpCount t k, 1 ≤ e.2 := by
  induction t with
  | nil =>
    intro e he
    simp [bumpCount] at he
    simp [he]
  | cons a rest ih =>
    obtain ⟨b, c⟩ := a
    by_cases hb : b = k
    · subst hb
      intro e he
      rw [bumpCount, if_pos rfl] at he
      rcases List.mem_cons.mp he with h1 | h1
      · simp [h1]
      · exact h e (List.mem_cons_of_mem _ h1)
    · intro e he
      rw [bumpCount, if_neg hb] at he
      rcases List.mem_cons.mp he with h1 | h1
      · subst h1
        exact h (b, c) (List.mem_cons_self _ _)
      · exact ih (fun e' he' => h e' (List.mem_cons_of_mem _ he')) e h1

theorem foldl_authStep_pos (lines : List String) :
    ∀ t : List (String × Nat), (∀ e ∈ t, 1 ≤ e.2) →
      ∀ e ∈ lines.foldl authStep t, 1 ≤ e.2 := by
  induction lines with
  | nil => intro t ht e he; exact ht e (by simpa using he)
  | cons l rest ih =>
    intro t ht
    rw [List.foldl_cons]
    refine ih (authStep t l) ?_
    intro e he
    unfold authStep at he
    split at he
    · split at he
      · exact bumpCount_pos t _ ht e he
      · exact ht e he
    · exact ht e he

/-- C2: for every IP in the per-IP tally its count is at least 1 (an IP with
zero counted failures never enters the tally, hence never the output), the
emitted alert is the CRITICAL brute-force alert when the count is ≥ 5 and
the MEDIUM suspicious-logins alert when it is 1–4, and every non-clear
alert of the auth rule stems from a tally entry. -/
theorem c2_ip_alerts (path : String) (lines : List String) (ip : String) (c : Nat) :
    ((ip, c) ∈ (parse_auth_log path (some lines)).1 →
      1 ≤ c ∧
      (5 ≤ c → bruteAlert (ip, c) ∈ classify_auth (parse_auth_log path (some lines)).1) ∧
      (c < 5 → suspAlert (ip, c) ∈ classify_auth (parse_auth_log path (some lines)).1)) ∧
    ((ip, 0) ∉ (parse_auth_log path (some lines)).1) ∧
    (∀ a ∈ classify_auth (parse_auth_log path (some lines)).1,
      a ≠ authClearAlert → ∃ e ∈ (parse_auth_log path (some lines)).1, a = authAlertFor e) := by
  have hpos : ∀ e ∈ (parse_auth_log path (some lines)).1, 1 ≤ e.2 :=
    foldl_authStep_pos lines [] (by simp)
  refine ⟨fun hmem => ?_, fun h0 => absurd (hpos _ h0) (by omega), fun a ha hne => ?_⟩
  · have hnil : (parse_auth_log path (some lines)).1 ≠ [] := List.ne_nil_of_mem hmem
    have hemp : (parse_auth_log path (some lines)).1.isEmpty = false := by
      simpa [List.isEmpty_iff] using hnil
    have hsort : (ip, c) ∈ pySortDesc (parse_auth_log path (some lines)).1 :=
      ((List.perm_insertionSort byCountDesc _).mem_iff).mpr hmem
    refine ⟨hpos _ hmem, fun h5 => ?_, fun h4 => ?_⟩
    · have he : authAlertFor (ip, c) = bruteAlert (ip, c) := by
        unfold authAlertFor
        exact if_pos h5
      rw [classify_auth, hemp]
      simp only [Bool.false_eq_true, if_false]
      exact he ▸ List.mem_map_of_mem authAlertFor hsort
    · have he : authAlertFor (ip, c) = suspAlert (ip, c) := by
        unfold authAlertFor
        exact if_neg (by omega)
      rw [classify_auth, hemp]
      simp only [Bool.false_eq_true, if_false]
      exact he ▸ List.mem_map_of_mem authAlertFor hsort
  · rw [classify_auth] at ha
    by_cases hemp : (parse_auth_log path (some lines)).1.isEmpty
    · rw [hemp] at ha
      simp at ha
      exact absurd ha hne
    · rw [Bool.not_eq_true] at hemp
      rw [hemp] at ha
      simp only [Bool.false_eq_true, if_false] at ha
      obtain ⟨e, he, rfl⟩ := List.mem_map.mp ha
      exact ⟨e, ((List.perm_insertionSort byCountDesc _).mem_iff).mp he, rfl⟩

/-- Witness for C2: five failed lines from 9.9.9.9 yield its CRITICAL
brute-force alert; a single failed line from 1.2.3.4 yields its MEDIUM
alert. -/
theorem c2_ip_alerts_witness :
    bruteAlert ("9.9.9.9", 5) ∈ classify_auth
      (parse_auth_log "auth.log" (some (List.replicate 5 "x failed 9.9.9.9"))).1 ∧
    suspAlert ("1.2.3.4", 1) ∈ classify_auth
      (parse_auth_log "auth.log" (some ["y failed 1.2.3.4"])).1 := by
  constructor
  · exact ((c2_ip_alerts "auth.log" (List.replicate 5 "x failed 9.9.9.9") "9.9.9.9" 5).1
      (by decide)).2.1 (by decide)
  · exact ((c2_ip_alerts "auth.log" ["y failed 1.2.3.4"] "1.2.3.4" 1).1
      (by decide)).2.2 (by decide)

/-! ### C7: output ordering of the per-IP alerts -/

theorem filter_orderedInsert_eqc (x : String × Nat) (c : Nat) (hx : x.2 = c) :
    ∀ s : List (String × Nat),
      (List.orderedInsert byCountDesc x s).filter (fun e => e.2 == c)
        = x :: s.filter (fun e => e.2 == c) := by
  intro s
  induction s with
  | nil => simp [List.orderedInsert, hx]
  | cons y ys ih =>
    by_cases hr : byCountDesc x y
    · rw [List.orderedInsert, if_pos hr, List.filter_cons]
      simp [hx]
    · have hyc : y.2 ≠ c := by
        unfold byCountDesc at hr
        omega
      rw [List.orderedInsert, if_neg hr, List.filter_cons, List.filter_cons]
      simp only [beq_false_of_ne hyc, Bool.false_eq_true, if_false]
      exact ih

theorem filter_orderedInsert_nec (x : String × Nat) (c : Nat) (hx : x.2 ≠ c) :
    ∀ s : List (String × Nat),
      (List.orderedInsert byCountDesc x s).filter (fun e => e.2 == c)
        = s.filter (fun e => e.2 == c) := by
  intro s
  induction s with
  | nil => simp [List.orderedInsert, beq_false_of_ne hx]
  | cons y ys ih =>
    by_cases hr : byCountDesc x y
    · rw [List.orderedInsert, if_pos hr, List.filter_cons]
      simp only [beq_false_of_ne hx, Bool.false_eq_true, if_false]
    · rw [List.orderedInsert, if_neg hr, List.filter_cons, List.filter_cons, ih]

theorem filter_pySortDesc (t : List (String × Nat)) (c : Nat) :
    (pySortDesc t).filter (fun e => e.2 == c) = t.filter (fun e => e.2 == c) := by
  induction t with
  | nil => rfl
  | cons x xs ih =>
    have hstep : pySortDesc (x :: xs) = List.orderedInsert byCountDesc x (pySortDesc xs) :=
      rfl
    rw [hstep]
    by_cases hx : x.2 = c
    · rw [filter_orderedInsert_eqc x c hx, ih, List.filter_cons]
      simp [hx]
    · rw [filter_orderedInsert_nec x c hx, ih, List.filter_cons]
      simp [beq_false_of_ne hx]

/-- C7 (amended): the emitted per-IP list is sorted by descending failure
count and is a permutation of the tally; but two IPs with equal counts keep
the tally's insertion order — the order of first appearance in the log —
rather than ascending IP order (see the counterexample), which is still
deterministic.  For a non-empty tally the alert list is exactly this sorted
list rendered by `authAlertFor`. -/
theorem c7_ip_ordering (t : List (String × Nat)) :
    List.Sorted byCountDesc (pySortDesc t) ∧
    (pySortDesc t).Perm t ∧
    (∀ c : Nat, (pySortDesc t).filter (fun e => e.2 == c) = t.filter (fun e => e.2 == c)) ∧
    (t ≠ [] → classify_auth t = (pySortDesc t).map authAlertFor) := by
  refine ⟨List.sorted_insertionSort byCountDesc t, List.perm_insertionSort byCountDesc t,
    fun c => filter_pySortDesc t c, fun h => ?_⟩
  have hemp : t.isEmpty = false := by simpa [List.isEmpty_iff] using h
  rw [classify_auth, hemp]
  simp

/-- Witness for C7 on a concrete two-entry tally. -/
theorem c7_ip_ordering_witness :
    classify_auth [("a", 1), ("b", 7)] = (pySortDesc [("a", 1), ("b", 7)]).map authAlertFor ∧
    pySortDesc [("a", 1), ("b", 7)] = [("b", 7), ("a", 1)] :=
  ⟨(c7_ip_ordering [("a", 1), ("b", 7)]).2.2.2 (by decide), by decide⟩

/-- C7 counterexample: from the log lines `failed 9.9.9.9`, `failed 1.1.1.1`
both IPs have count 1, yet the alerts list 9.9.9.9 first although
`"1.1.1.1" < "9.9.9.9"` — equal counts are emitted in first-appearance
order, not ascending IP order, refuting the claimed tie-break. -/
theorem c7_cex_insertion_order_ties :
    classify_auth (parse_auth_log "auth.log" (some ["failed 9.9.9.9", "failed 1.1.1.1"])).1
      = [suspAlert ("9.9.9.9", 1), suspAlert ("1.1.1.1", 1)] ∧
    "1.1.1.1".data < "9.9.9.9".data :=
  ⟨by decide, by decide⟩

/-! ### C3: the Linux process blocklist rule -/

/-- C3 (amended): in `final_analysis.py` the matching names are
case-insensitively selected, deduplicated and sorted ascending — exactly one
CRITICAL line per distinct matching name, with a single OK line when nothing
matches; in `analysis_engine.py`'s `classify_linux` each matching occurrence
yields one CRITICAL alert in inventory order (duplicates are not collapsed,
see the counterexample), with a single INFO clear alert when nothing
matches. -/
theorem c3_process_rule (procs1 procs2 : List String) :
    List.Sorted strLe (finalLinuxHits procs1) ∧
    (∀ name : String, (finalLinuxHits procs1).count name
      = if name ∈ procs1 ∧ pyLower name ∈ linux_risk_list then 1 else 0) ∧
    (finalLinuxHits procs1 = [] →
      finalLinuxReportLines procs1 = ["OK: Inga kända Linux-riskprocesser upptäckta."]) ∧
    (finalLinuxHits procs1 ≠ [] →
      finalLinuxReportLines procs1
        = (finalLinuxHits procs1).map (fun p => "CRITICAL: Linux riskprocess upptäckt – " ++ p)) ∧
    ((procs2.filter (fun p => decide (pyLower p ∈ RISK_PROCESSES))).isEmpty = true →
      classify_linux procs2 = [linuxClearAlert]) ∧
    ((procs2.filter (fun p => decide (pyLower p ∈ RISK_PROCESSES))).isEmpty = false →
      classify_linux procs2
        = (procs2.filter (fun p => decide (pyLower p ∈ RISK_PROCESSES))).map linuxCritAlert) := by
  refine ⟨List.sorted_insertionSort strLe _, fun name => ?_, fun h => ?_, fun h => ?_,
    fun h => ?_, fun h => ?_⟩
  · have hperm := List.perm_insertionSort strLe
      ((procs1.filter (fun p => decide (pyLower p ∈ linux_risk_list))).dedup)
    rw [finalLinuxHits, hperm.count_eq]
    by_cases hmem : name ∈ (procs1.filter (fun p => decide (pyLower p ∈ linux_risk_list))).dedup
    · rw [List.count_eq_one_of_mem (List.nodup_dedup _) hmem]
      rw [List.mem_dedup, List.mem_filter] at hmem
      simp only [decide_eq_true_eq] at hmem
      rw [if_pos hmem]
    · rw [List.count_eq_zero.mpr hmem]
      rw [List.mem_dedup, List.mem_filter] at hmem
      simp only [decide_eq_true_eq] at hmem
      rw [if_neg hmem]
  · rw [finalLinuxReportLines, h]
    rfl
  · have hemp : (finalLinuxHits procs1).isEmpty = false := by
      simpa [List.isEmpty_iff] using h
    rw [finalLinuxReportLines, hemp]
    simp
  · rw [classify_linux, h]
    rfl
  · rw [classify_linux, h]
    rfl

/-- Witness for C3: concrete inventories exercising both variants' match
and no-match branches. -/
theorem c3_process_rule_witness :
    finalLinuxReportLines ["NC", "bash", "nc"]
      = ["CRITICAL: Linux riskprocess upptäckt – NC",
         "CRITICAL: Linux riskprocess upptäckt – nc"] ∧
    finalLinuxReportLines ["bash"] = ["OK: Inga kända Linux-riskprocesser upptäckta."] ∧
    classify_linux ["bash"] = [linuxClearAlert] ∧
    classify_linux ["netcat"] = [linuxCritAlert "netcat"] := by
  refine ⟨?_, ?_, ?_, ?_⟩
  · exact ((c3_process_rule ["NC", "bash", "nc"] []).2.2.2.1 (by decide)).trans (by decide)
  · exact (c3_process_rule ["bash"] []).2.2.1 (by decide)
  · exact (c3_process_rule [] ["bash"]).2.2.2.2.1 (by decide)
  · exact ((c3_process_rule [] ["netcat"]).2.2.2.2.2 (by decide)).trans (by decide)

/-- C3 counterexample: the inventory `["nc", "nc"]` has one distinct
matching name but `classify_linux` emits two CRITICAL alerts for it —
duplicate occurrences do not collapse to one alert, refuting the claim for
this rule implementation. -/
theorem c3_cex_duplicates_not_collapsed :
    classify_linux ["nc", "nc"] = [linuxCritAlert "nc", linuxCritAlert "nc"] ∧
    (classify_linux ["nc", "nc"]).count (linuxCritAlert "nc") = 2 :=
  ⟨by decide, by decide⟩

/-! ### C4: the Windows service blocklist rule -/

/-- C4 (amended): in `classify_windows` each service row whose exact name is
in the blocklist yields one HIGH alert per matching row — in inventory
order, duplicates not collapsed and not re-sorted (see the counterexample) —
with the alert message embedding the row's reported status; the number of
HIGH alerts equals the number of matching rows, every HIGH alert stems from
a blocklisted row, and if no row matches the rule emits exactly one INFO
clear alert and zero HIGH alerts. -/
theorem c4_service_rule (svcs : List ServiceRow) :
    ((svcs.filter (fun s => decide (s.name ∈ RISK_SERVICES))).isEmpty = true →
      classify_windows svcs = [winClearAlert]) ∧
    ((svcs.filter (fun s => decide (s.name ∈ RISK_SERVICES))).isEmpty = false →
      classify_windows svcs
        = (svcs.filter (fun s => decide (s.name ∈ RISK_SERVICES))).map winHighAlert) ∧
    ((classify_windows svcs).countP (fun a => a.severity == "HIGH")
      = (svcs.filter (fun s => decide (s.name ∈ RISK_SERVICES))).length) ∧
    (∀ a ∈ classify_windows svcs, a.severity = "HIGH" →
      ∃ s ∈ svcs, s.name ∈ RISK_SERVICES ∧ a = winHighAlert s) := by
  refine ⟨fun h => ?_, fun h => ?_, ?_, fun a ha hhigh => ?_⟩
  · rw [classify_windows, h]
    rfl
  · rw [classify_windows, h]
    rfl
  · by_cases h : (svcs.filter (fun s => decide (s.name ∈ RISK_SERVICES))).isEmpty
    · rw [classify_windows, h, List.isEmpty_iff.mp h]
      rfl
    · rw [Bool.not_eq_true] at h
      rw [classify_windows, h]
      simp only [Bool.false_eq_true, if_false]
      rw [List.countP_map]
      have : ∀ s : ServiceRow, ((fun a : Alert => a.severity == "HIGH") ∘ winHighAlert) s = true := by
        intro s
        rfl
      exact List.countP_eq_length.mpr fun s _ => this s
  · rw [classify_windows] at ha
    by_cases h : (svcs.filter (fun s => decide (s.name ∈ RISK_SERVICES))).isEmpty
    · rw [h] at ha
      simp at ha
      rw [ha] at hhigh
      exact absurd hhigh (by decide)
    · rw [Bool.not_eq_true] at h
      rw [h] at ha
      simp only [Bool.false_eq_true, if_false] at ha
      obtain ⟨s, hs, rfl⟩ := List.mem_map.mp ha
      rw [List.mem_filter] at hs
      exact ⟨s, hs.1, by simpa using hs.2, rfl⟩

/-- Witness for C4: a blocklisted service row yields its HIGH alert with the
status embedded; a clean inventory yields the single INFO clear alert. -/
theorem c4_service_rule_witness :
    classify_windows [⟨"Spooler", "Running"⟩]
      = [⟨"HIGH", "(windows) Risky service detected: Spooler (Status=Running)"⟩] ∧
    classify_windows [⟨"sshd", "Running"⟩] = [winClearAlert] := by
  constructor
  · exact ((c4_service_rule [⟨"Spooler", "Running"⟩]).2.1 (by decide)).trans (by decide)
  · exact (c4_service_rule [⟨"sshd", "Running"⟩]).1 (by decide)

/-- C4 counterexample: two identical `Telnet` rows are one distinct matching
service, yet `classify_windows` emits two HIGH alerts — duplicates are not
collapsed to one alert per distinct service, refuting the claim. -/
theorem c4_cex_duplicates_not_collapsed :
    classify_windows [⟨"Telnet", "Running"⟩, ⟨"Telnet", "Running"⟩]
      = [winHighAlert ⟨"Telnet", "Running"⟩, winHighAlert ⟨"Telnet", "Running"⟩] ∧
    (classify_windows [⟨"Telnet", "Running"⟩, ⟨"Telnet", "Running"⟩]).count
      (winHighAlert ⟨"Telnet", "Running"⟩) = 2 :=
  ⟨by decide, by decide⟩

/-! ### C6 and C10: the per-user failed-login counting pass -/

/-- The number of failed_login events naming user `n` (nonempty after
trimming), the measure by which `apply_event_fails` increments a known
user's fail count. -/
def cntUser (events : List Event) (n : String) : Nat :=
  events.countP (fun e => decide (evType e = "failed_login" ∧ evUser e = n ∧ n ≠ ""))

theorem keysOf_bumpUser (users : List (String × UserInfo)) (k : String) :
    keysOf (bumpUser users k) = keysOf users := by
  unfold keysOf bumpUser
  rw [List.map_map]
  refine List.map_congr_left ?_
  intro p _
  by_cases h : p.1 = k <;> simp [h]

theorem cntUser_cons_skip (e : Event) (es : List Event) (n : String)
    (h : evType e ≠ "failed_login" ∨ evUser e = "") :
    cntUser (e :: es) n = cntUser es n := by
  unfold cntUser
  rw [List.countP_cons]
  have hd : decide (evType e = "failed_login" ∧ evUser e = n ∧ n ≠ "") = false := by
    rw [decide_eq_false_iff_not]
    rcases h with h | h
    · tauto
    · rintro ⟨_, h2, h3⟩
      exact h3 (h2.symm.trans h)
  rw [hd]
  simp

theorem cntUser_cons_hit (e : Event) (es : List Event) (n : String)
    (h1 : evType e = "failed_login") (h2 : evUser e ≠ "") :
    cntUser (e :: es) n = cntUser es n + if evUser e = n then 1 else 0 := by
  unfold cntUser
  rw [List.countP_cons]
  by_cases h : evUser e = n
  · have hn : n ≠ "" := h ▸ h2
    simp [h1, h, hn]
  · simp [h]

theorem applyFailsGo_users (events : List Event) :
    ∀ users tally, (applyFailsGo users tally events).1
      = users.map (fun p => (p.1, ⟨p.2.status, p.2.fails + cntUser events p.1⟩)) := by
  induction events with
  | nil =>
    intro users tally
    have h0 : users.map (fun p : String × UserInfo =>
        (p.1, (⟨p.2.status, p.2.fails + cntUser [] p.1⟩ : UserInfo))) = users.map id :=
      List.map_congr_left fun p _ => rfl
    rw [h0, List.map_id]
    rfl
  | cons e es ih =>
    intro users tally
    rw [applyFailsGo]
    by_cases h1 : evType e ≠ "failed_login"
    · rw [if_pos h1, ih]
      exact List.map_congr_left fun p _ => by
        rw [cntUser_cons_skip e es p.1 (Or.inl h1)]
    · rw [if_neg h1]
      push_neg at h1
      by_cases h2 : evUser e = ""
      · rw [if_pos h2, ih]
        exact List.map_congr_left fun p _ => by
          rw [cntUser_cons_skip e es p.1 (Or.inr h2)]
      · rw [if_neg h2]
        by_cases h3 : evUser e ∈ keysOf users
        · rw [if_pos h3, ih, bumpUser, List.map_map]
          refine List.map_congr_left ?_
          intro p _
          simp only [Function.comp_apply]
          by_cases h4 : p.1 = evUser e
          · rw [if_pos h4, cntUser_cons_hit e es p.1 h1 h2, if_pos h4.symm]
            simp only [Prod.mk.injEq, UserInfo.mk.injEq, true_and]
            omega
          · rw [if_neg h4, cntUser_cons_hit e es p.1 h1 h2,
              if_neg (fun hh : evUser e = p.1 => h4 hh.symm)]
            simp
        · rw [if_neg h3, ih]
          refine List.map_congr_left ?_
          intro p hp
          have hp1 : p.1 ∈ keysOf users := List.mem_map_of_mem Prod.fst hp
          rw [cntUser_cons_hit e es p.1 h1 h2,
            if_neg (fun hh : evUser e = p.1 => h3 (hh.symm ▸ hp1))]
          simp

/-- The Boolean test for an unknown-user failed login, relative to the user
table's keys. -/
def unknownPred (users : List (String × UserInfo)) (e : Event) : Bool :=
  decide (evType e = "failed_login" ∧ evUser e ≠ "" ∧ evUser e ∉ keysOf users)

theorem applyFailsGo_tally (events : List Event) :
    ∀ users tally, (applyFailsGo users tally events).2
      = (events.filter (unknownPred users)).foldl
          (fun t e => bumpCount t (evUser e)) tally := by
  induction events with
  | nil => intro users tally; rfl
  | cons e es ih =>
    intro users tally
    rw [applyFailsGo, List.filter_cons]
    by_cases h1 : evType e ≠ "failed_login"
    · have hu : unknownPred users e = false := by
        simp only [unknownPred, decide_eq_false_iff_not]
        tauto
      rw [if_pos h1, hu]
      simp only [Bool.false_eq_true, if_false]
      exact ih users tally
    · rw [if_neg h1]
      push_neg at h1
      by_cases h2 : evUser e = ""
      · have hu : unknownPred users e = false := by
          simp only [unknownPred, decide_eq_false_iff_not]
          tauto
        rw [if_pos h2, hu]
        simp only [Bool.false_eq_true, if_false]
        exact ih users tally
      · by_cases h3 : evUser e ∈ keysOf users
        · have hu : unknownPred users e = false := by
            simp only [unknownPred, decide_eq_false_iff_not]
            tauto
          rw [if_neg h2, if_pos h3, hu]
          simp only [Bool.false_eq_true, if_false]
          rw [ih (bumpUser users (evUser e)) tally]
          congr 1
          refine List.filter_congr ?_
          intro x _
          simp [unknownPred, keysOf_bumpUser]
        · have hu : unknownPred users e = true := by
            simp only [unknownPred, decide_eq_true_eq]
            exact ⟨h1, h2, h3⟩
          rw [if_neg h2, if_neg h3, hu]
          simp only [if_true]
          rw [ih users (bumpCount tally (evUser e))]
          rfl

theorem sum_bumpCount (t : List (String × Nat)) (k : String) :
    ((bumpCount t k).map Prod.snd).sum = (t.map Prod.snd).sum + 1 := by
  induction t with
  | nil => rfl
  | cons a rest ih =>
    obtain ⟨b, c⟩ := a
    by_cases h : b = k
    · rw [bumpCount, if_pos h]
      simp [List.sum_cons]
      omega
    · rw [bumpCount, if_neg h]
      simp [List.sum_cons, ih]
      omega

theorem sum_foldl_bump (evs : List Event) :
    ∀ tally : List (String × Nat),
      (((evs.foldl (fun t e => bumpCount t (evUser e)) tally)).map Prod.snd).sum
        = (tally.map Prod.snd).sum + evs.length := by
  induction evs with
  | nil => intro t; simp
  | cons e es ih =>
    intro t
    rw [List.foldl_cons, ih, sum_bumpCount, List.length_cons]
    omega

theorem keysOf_bumpCount_self (t : List (String × Nat)) (k : String) :
    k ∈ keysOf (bumpCount t k) := by
  induction t with
  | nil => simp [bumpCount, keysOf]
  | cons a rest ih =>
    obtain ⟨b, c⟩ := a
    by_cases h : b = k
    · rw [bumpCount, if_pos h]
      simp [keysOf, h]
    · rw [bumpCount, if_neg h]
      simp only [keysOf, List.map_cons, List.mem_cons]
      exact Or.inr (by simpa [keysOf] using ih)

theorem keysOf_bumpCount_mono (t : List (String × Nat)) (k k' : String)
    (h : k' ∈ keysOf t) : k' ∈ keysOf (bumpCount t k) := by
  induction t with
  | nil => simp [keysOf] at h
  | cons a rest ih =>
    obtain ⟨b, c⟩ := a
    by_cases hb : b = k
    · rw [bumpCount, if_pos hb]
      simpa [keysOf] using h
    · rw [bumpCount, if_neg hb]
      simp only [keysOf, List.map_cons, List.mem_cons] at h ⊢
      rcases h with h | h
      · exact Or.inl h
      · exact Or.inr (by simpa [keysOf] using ih (by simpa [keysOf] using h))

theorem keysOf_foldl_bump_mono (evs : List Event) :
    ∀ tally : List (String × Nat), ∀ k, k ∈ keysOf tally →
      k ∈ keysOf (evs.foldl (fun t e => bumpCount t (evUser e)) tally) := by
  induction evs with
  | nil => intro t k h; exact h
  | cons e es ih =>
    intro t k h
    rw [List.foldl_cons]
    exact ih _ k (keysOf_bumpCount_mono t (evUser e) k h)

theorem keysOf_foldl_bump_mem (evs : List Event) :
    ∀ tally : List (String × Nat), ∀ e ∈ evs,
      evUser e ∈ keysOf (evs.foldl (fun t e => bumpCount t (evUser e)) tally) := by
  induction evs with
  | nil => intro t e h; simp at h
  | cons e0 es ih =>
    intro t e h
    rw [List.foldl_cons]
    rcases List.mem_cons.mp h with h | h
    · subst h
      exact keysOf_foldl_bump_mono es _ _ (keysOf_bumpCount_self t (evUser e))
    · exact ih _ e h

theorem applyFailsGo_filter_empty (events : List Event) :
    ∀ users tally,
      applyFailsGo users tally (events.filter (fun e => decide (evUser e ≠ "")))
        = applyFailsGo users tally events := by
  induction events with
  | nil => intro u t; rfl
  | cons e es ih =>
    intro u t
    rw [List.filter_cons]
    by_cases h2 : evUser e = ""
    · have hd : (decide (evUser e ≠ "")) = false := by simp [h2]
      rw [hd]
      simp only [Bool.false_eq_true, if_false]
      rw [ih]
      conv_rhs => rw [applyFailsGo]
      by_cases h1 : evType e ≠ "failed_login"
      · rw [if_pos h1]
      · rw [if_neg h1, if_pos h2]
    · have hd : (decide (evUser e ≠ "")) = true := by simp [h2]
      rw [hd]
      simp only [if_true]
      rw [applyFailsGo]
      conv_rhs => rw [applyFailsGo]
      split_ifs <;> exact ih _ _

theorem count_failed_logins_users (events : List Event) :
    ∀ users, count_failed_logins events users
      = users.map (fun p => (p.1, ⟨p.2.status,
          p.2.fails + events.countP
            (fun e => decide (e.event = some "failed_login" ∧ e.user = some p.1))⟩)) := by
  induction events with
  | nil =>
    intro users
    have h0 : users.map (fun p : String × UserInfo =>
        (p.1, (⟨p.2.status, p.2.fails + List.countP
          (fun e : Event => decide (e.event = some "failed_login" ∧ e.user = some p.1)) []⟩ :
            UserInfo))) = users.map id := List.map_congr_left fun p _ => rfl
    rw [h0, List.map_id]
    rfl
  | cons e es ih =>
    intro users
    rw [count_failed_logins, List.foldl_cons]
    have hstep : es.foldl cflStep (cflStep users e) = count_failed_logins es (cflStep users e) :=
      rfl
    rw [hstep, ih (cflStep users e)]
    cases hu : e.user with
    | none =>
      simp only [cflStep, hu]
      refine List.map_congr_left fun p _ => ?_
      rw [List.countP_cons]
      have hd : decide (e.event = some "failed_login" ∧ e.user = some p.1) = false := by
        simp [hu]
      rw [hd]
      simp
    | some u =>
      by_cases hc : e.event = some "failed_login" ∧ u ∈ keysOf users
      · simp only [cflStep, hu, if_pos hc]
        rw [bumpUser, List.map_map]
        refine List.map_congr_left fun p hp => ?_
        simp only [Function.comp_apply]
        by_cases h4 : p.1 = u
        · rw [if_pos h4, List.countP_cons]
          have hd : decide (e.event = some "failed_login" ∧ e.user = some p.1) = true := by
            simp [hu, hc.1, h4]
          rw [hd]
          simp only [Prod.mk.injEq, UserInfo.mk.injEq, true_and, if_true]
          omega
        · rw [if_neg h4, List.countP_cons]
          have hd : decide (e.event = some "failed_login" ∧ e.user = some p.1) = false := by
            simp only [decide_eq_false_iff_not]
            rintro ⟨_, hus⟩
            rw [hu] at hus
            exact h4 (Option.some.inj hus).symm
          rw [hd]
          simp
      · simp only [cflStep, hu, if_neg hc]
        refine List.map_congr_left fun p hp => ?_
        rw [List.countP_cons]
        have hd : decide (e.event = some "failed_login" ∧ e.user = some p.1) = false := by
          simp only [decide_eq_false_iff_not]
          rintro ⟨hev, hus⟩
          rw [hu] at hus
          have hup : u = p.1 := Option.some.inj hus
          exact hc ⟨hev, hup ▸ List.mem_map_of_mem Prod.fst hp⟩
        rw [hd]
        simp

/-- C6 (amended): in `hot_detection_engine.py`'s `apply_event_fails`,
failed_login events naming a user absent from the account table are never
lost: the sum of the counts in the returned `unknown_users` tally equals
the total number of such events, and every such user appears among the
tally's keys.  (`risk_analysis.py`'s simpler `count_failed_logins` instead
skips such events with no trace at all — see the counterexample.) -/
theorem c6_unknown_users_tally (users : List (String × UserInfo)) (events : List Event) :
    (((apply_event_fails users events).2.map Prod.snd).sum
      = events.countP (unknownPred users)) ∧
    (∀ e ∈ events, evType e = "failed_login" → evUser e ≠ "" →
      evUser e ∉ keysOf users →
      evUser e ∈ keysOf (apply_event_fails users events).2) := by
  constructor
  · rw [apply_event_fails, applyFailsGo_tally, sum_foldl_bump,
      List.countP_eq_length_filter]
    simp
  · intro e he h1 h2 h3
    rw [apply_event_fails, applyFailsGo_tally]
    refine keysOf_foldl_bump_mem _ _ e ?_
    rw [List.mem_filter]
    refine ⟨he, ?_⟩
    simp only [unknownPred, decide_eq_true_eq]
    exact ⟨h1, h2, h3⟩

/-- Witness for C6: two failed logins by the unknown user bob (plus one by
the known user alice) put bob into the tally with total count 2. -/
theorem c6_unknown_users_tally_witness :
    ((apply_event_fails [("alice", ⟨"active", 0⟩)]
        [⟨some "bob", some "failed_login"⟩, ⟨some "alice", some "failed_login"⟩,
         ⟨some "bob", some "failed_login"⟩]).2.map Prod.snd).sum = 2 ∧
    "bob" ∈ keysOf (apply_event_fails [("alice", ⟨"active", 0⟩)]
        [⟨some "bob", some "failed_login"⟩, ⟨some "alice", some "failed_login"⟩,
         ⟨some "bob", some "failed_login"⟩]).2 := by
  have h := c6_unknown_users_tally [("alice", ⟨"active", 0⟩)]
      [⟨some "bob", some "failed_login"⟩, ⟨some "alice", some "failed_login"⟩,
       ⟨some "bob", some "failed_login"⟩]
  exact ⟨h.1.trans (by decide),
    h.2 ⟨some "bob", some "failed_login"⟩ (by decide) (by decide) (by decide) (by decide)⟩

/-- C6 counterexample: `count_failed_logins` of `risk_analysis.py` leaves
the user table bit-for-bit unchanged on a failed_login event naming the
unknown user bob — the event vanishes silently, and the function keeps no
unknown-users tally at all, refuting "never silently dropped" for this
counting pass. -/
theorem c6_cex_count_failed_logins_drops :
    count_failed_logins [⟨some "bob", some "failed_login"⟩] [("alice", ⟨"active", 0⟩)]
      = [("alice", ⟨"active", 0⟩)] ∧
    "bob" ∉ keysOf [("alice", (⟨"active", 0⟩ : UserInfo))] :=
  ⟨by decide, by decide⟩

/-- C10: the counting pass only rewrites fail counts.  `apply_event_fails`
maps each table entry to the same username and status with the fail count
raised by exactly the number of failed_login events naming that user
(trimmed); the key set is unchanged; events whose user is empty or missing
after trimming can be deleted from the event list without changing the
result (they are neither counted nor tallied).  `count_failed_logins` does
the same with its exact, untrimmed matching and no tally. -/
theorem c10_counting_frame (users : List (String × UserInfo)) (events : List Event) :
    ((apply_event_fails users events).1
      = users.map (fun p => (p.1, ⟨p.2.status, p.2.fails + cntUser events p.1⟩))) ∧
    (keysOf (apply_event_fails users events).1 = keysOf users) ∧
    (apply_event_fails users (events.filter (fun e => decide (evUser e ≠ "")))
      = apply_event_fails users events) ∧
    (count_failed_logins events users
      = users.map (fun p => (p.1, ⟨p.2.status,
          p.2.fails + events.countP
            (fun e => decide (e.event = some "failed_login" ∧ e.user = some p.1))⟩))) := by
  refine ⟨applyFailsGo_users events users [], ?_, ?_, count_failed_logins_users events users⟩
  · rw [apply_event_fails, applyFailsGo_users events users []]
    unfold keysOf
    rw [List.map_map]
    exact List.map_congr_left fun p _ => rfl
  · exact applyFailsGo_filter_empty events users []
